import Mathlib

/-!
Shallow embedding of the Recipe Recommendation & Meal-Plan Assembly Engine
(`src/services/recipe-recommendation-service.ts` and
`src/context/meal-plan-provider.tsx`).

Numbers from the source (scores, servings, weights) are modelled as `ℚ`.
JavaScript truthiness on numbers (`x || y` falls through exactly when x is 0,
null or undefined) is modelled by `jsOrQ` / `jsOrOpt`.
The non-deterministic parts of the source (the randomised tie-break inside
`Array.sort`, and `Math.random`-based id generation) are modelled by
parameters: `getRecommendations` takes the sort as a function argument that
is assumed to permute its input, and generated meal ids are drawn from a
counter threaded through the provider state.
-/

namespace MealMate

/-- A tag from the reference taxonomy (`Tag` in `types/database`): an id and a
`type` discriminator (cuisine, protein, budget, time, ...). -/
structure Tag where
  id : String
  type : String
  deriving DecidableEq, Repr

/-- One row of `preferences.user_preference_tags`. -/
structure UserPrefTag where
  tag_id : String
  deriving DecidableEq, Repr

/-- The source type `UserPreferencesWithTags`: the fields the engine reads. -/
structure UserPreferences where
  user_preference_tags : List UserPrefTag := []
  user_goals : List String := []
  meals_per_week : Option ℚ := none
  serves_per_meal : Option ℚ := none
  deriving DecidableEq, Repr

/-- The source type `RecipeWithTags`: the fields the engine reads (ids, tag ids, defaults and
the denormalized display fields used on load). -/
structure RecipeWithTags where
  id : String
  tagIds : List String := []
  default_servings : ℚ := 0
  name : String := ""
  image_url : String := ""
  total_time : ℚ := 0
  description : String := ""
  prep_time : ℚ := 0
  cook_time : ℚ := 0
  created_at : String := ""
  deriving DecidableEq, Repr

/-- The per-term score breakdown of `ScoredRecipe.scoreBreakdown`. -/
structure ScoreBreakdown where
  preferenceTagMatches : ℚ
  goalAlignment : ℚ
  diversityBonus : ℚ
  recencyPenalty : ℚ
  total : ℚ
  deriving DecidableEq, Repr

/-- The source type `ScoredRecipe`: in TS it extends `RecipeWithTags` by spreading the recipe;
here the recipe is held as a field. -/
structure ScoredRecipe where
  recipe : RecipeWithTags
  score : ℚ
  scoreBreakdown : ScoreBreakdown
  matchedTagIds : List String
  matchedGoals : List String
  deriving DecidableEq, Repr

/-- The `weights` record of `RecommendationConfig`. -/
structure Weights where
  preferenceTag : ℚ
  goalAlignment : ℚ
  diversity : ℚ
  recency : ℚ
  deriving DecidableEq, Repr

/-- The source type `RecommendationConfig` (optional fields are always populated in
`DEFAULT_CONFIG`, and the code reads `minimumScore!` with a non-null
assertion, so they are modelled as plain fields). -/
structure RecommendationConfig where
  weights : Weights
  diversityTagTypes : List String
  recencyWindowDays : ℚ
  minimumScore : ℚ
  deriving DecidableEq, Repr

/-- The `DEFAULT_CONFIG` value from the service. -/
def DEFAULT_CONFIG : RecommendationConfig :=
  { weights :=
      { preferenceTag := 1
        goalAlignment := 2
        diversity := 1/2
        recency := -1/2 }
    diversityTagTypes := ["cuisine", "protein"]
    recencyWindowDays := 7
    minimumScore := 0 }

/-- The `context` argument of `scoreRecipe`. -/
structure ScoreContext where
  recentRecipeIds : List String := []
  currentMealPlanRecipeIds : List String := []
  deriving DecidableEq, Repr

/-- The source function `calculateDiversityBonus`: returns 0 when the recipe has no tags or no
diversity tag types are configured, else the flat diversity weight (the
source comments call this a placeholder). -/
def calculateDiversityBonus (cfg : RecommendationConfig)
    (recipe : RecipeWithTags) : ℚ :=
  if recipe.tagIds = [] ∨ cfg.diversityTagTypes = [] then 0
  else cfg.weights.diversity

/-- Step 1 of `scoreRecipe`: the `preferenceTagMatches` accumulator. One
`preferenceTag` weight is added per tag id on the recipe that is found in
`preferences.user_preference_tags`. The guard mirrors the JS truthiness check
`preferences.user_preference_tags?.length`. -/
def prefTagScore (cfg : RecommendationConfig) (recipe : RecipeWithTags)
    (prefs : UserPreferences) : ℚ :=
  if prefs.user_preference_tags ≠ [] then
    (recipe.tagIds.map (fun tid =>
      if prefs.user_preference_tags.filter (fun p => p.tag_id == tid) ≠ []
      then cfg.weights.preferenceTag else 0)).sum
  else 0

/-- Step 2 of `scoreRecipe`: the `goalAlignment` accumulator. For the goal at
position `index`, `priority = user_goals.length - index`; if any resolved
recipe tag has the type of that goal, `priority * goalAlignment` is added. -/
def goalAlignmentScore (cfg : RecommendationConfig) (recipe : RecipeWithTags)
    (prefs : UserPreferences) (tags : List Tag) : ℚ :=
  if prefs.user_goals ≠ [] ∧ tags ≠ [] then
    (prefs.user_goals.enum.map (fun p =>
      if (tags.filter (fun t => recipe.tagIds.contains t.id)).filter
          (fun t => t.type == p.2) ≠ [] then
        ((prefs.user_goals.length - p.1 : ℕ) : ℚ) * cfg.weights.goalAlignment
      else 0)).sum
  else 0

/-- Step 3 of `scoreRecipe`: the `diversityBonus` term, applied only when the
current meal plan is non-empty. -/
def diversityScore (cfg : RecommendationConfig) (recipe : RecipeWithTags)
    (ctx : ScoreContext) : ℚ :=
  if ctx.currentMealPlanRecipeIds ≠ [] then calculateDiversityBonus cfg recipe
  else 0

/-- Step 4 of `scoreRecipe`: the `recencyPenalty` term. -/
def recencyScore (cfg : RecommendationConfig) (recipe : RecipeWithTags)
    (ctx : ScoreContext) : ℚ :=
  if ctx.recentRecipeIds.contains recipe.id then cfg.weights.recency else 0

/-- The source function `scoreRecipe`: preference-tag matches, goal alignment, diversity bonus and
recency penalty, summed into `total`. -/
def scoreRecipe (cfg : RecommendationConfig) (recipe : RecipeWithTags)
    (prefs : UserPreferences) (tags : List Tag) (ctx : ScoreContext) :
    ScoredRecipe :=
  let prefMatches : ℚ := prefTagScore cfg recipe prefs
  let matchedTagIds : List String :=
    if prefs.user_preference_tags ≠ [] then
      recipe.tagIds.filter (fun tid =>
        prefs.user_preference_tags.filter (fun p => p.tag_id == tid) ≠ [])
    else []
  let goalAlign : ℚ := goalAlignmentScore cfg recipe prefs tags
  let matchedGoals : List String :=
    if prefs.user_goals ≠ [] ∧ tags ≠ [] then
      prefs.user_goals.filter (fun g =>
        (tags.filter (fun t => recipe.tagIds.contains t.id)).filter
          (fun t => t.type == g) ≠ [])
    else []
  let divBonus : ℚ := diversityScore cfg recipe ctx
  let recencyPen : ℚ := recencyScore cfg recipe ctx
  let total := prefMatches + goalAlign + divBonus + recencyPen
  { recipe := recipe
    score := total
    scoreBreakdown :=
      { preferenceTagMatches := prefMatches
        goalAlignment := goalAlign
        diversityBonus := divBonus
        recencyPenalty := recencyPen
        total := total }
    matchedTagIds := matchedTagIds
    matchedGoals := matchedGoals }

/-- The `options` argument of `getRecommendations`. `count` is modelled as a
natural number (it is the requested plan size). -/
structure RecOptions where
  count : ℕ
  excludeRecipeIds : List String := []
  recentRecipeIds : List String := []
  currentMealPlanRecipeIds : List String := []
  deriving DecidableEq, Repr

/-- The source function `getRecommendations`: filter exclusions, score, drop below `minimumScore`,
sort descending with a randomised tie-break, truncate to `count`. The sort is
passed in as `sortFn`; theorems assume only that it permutes its input, which
is what `Array.prototype.sort` guarantees for any comparator. -/
def getRecommendations (cfg : RecommendationConfig)
    (recipes : List RecipeWithTags) (prefs : UserPreferences)
    (tags : List Tag) (opts : RecOptions)
    (sortFn : List ScoredRecipe → List ScoredRecipe) : List ScoredRecipe :=
  let availableRecipes :=
    if opts.excludeRecipeIds ≠ [] then
      recipes.filter (fun r => ¬ opts.excludeRecipeIds.contains r.id)
    else recipes
  let scoredRecipes := availableRecipes.map (fun r =>
    scoreRecipe cfg r prefs tags
      { recentRecipeIds := opts.recentRecipeIds
        currentMealPlanRecipeIds := opts.currentMealPlanRecipeIds })
  let validRecipes := scoredRecipes.filter (fun r => cfg.minimumScore ≤ r.score)
  (sortFn validRecipes).take opts.count

/-! ## Meal-plan assembler (`src/context/meal-plan-provider.tsx`) -/

/-- The source type `MealPlanItem`: generated id, embedded recipe, servings, and the optional
week-binding fields attached when an item is loaded from persistence. -/
structure MealPlanItem where
  id : String
  recipe : RecipeWithTags
  servings : ℚ
  status : Option String := none
  week_id : Option String := none
  user_id : Option String := none
  created_at : Option String := none
  updated_at : Option String := none
  deriving DecidableEq, Repr

/-- JS `x || y` on numbers: `y` is used exactly when `x` is `0` (falsy). -/
def jsOrQ (x y : ℚ) : ℚ := if x = 0 then y else x

/-- JS `x || y` where `x` may also be null/undefined. -/
def jsOrOpt (x : Option ℚ) (y : ℚ) : ℚ :=
  match x with
  | none => y
  | some v => jsOrQ v y

/-- The provider state: the working plan plus the error and console channels.
`generateMealId` in the source is `Date.now()` plus a random suffix; its only
relevant property is freshness, modelled by the `nextId` counter. -/
structure ProviderState where
  currentMealPlan : List MealPlanItem := []
  nextId : ℕ := 0
  errorState : Option String := none
  consoleLog : List String := []
  deriving DecidableEq, Repr

/-- Fresh id for a meal plan item (see `ProviderState.nextId`). -/
def generateMealId (n : ℕ) : String := "meal_" ++ toString n

/-- The servings attached by `generateInitialMealPlan`:
`userPreferences.serves_per_meal || recipe.default_servings || 1`. -/
def generatedServings (p : UserPreferences) (r : RecipeWithTags) : ℚ :=
  jsOrOpt p.serves_per_meal (jsOrQ r.default_servings 1)

/-- The loop `recommendations.map` inside `generateInitialMealPlan`: wrap each
recommended recipe into a `MealPlanItem` with a fresh id. -/
def mealItemsFrom (p : UserPreferences) (recs : List RecipeWithTags)
    (n : ℕ) : List MealPlanItem :=
  match recs with
  | [] => []
  | r :: rest =>
      { id := generateMealId n, recipe := r, servings := generatedServings p r }
        :: mealItemsFrom p rest (n + 1)

/-- The source function `generateInitialMealPlan`: no-op apart from a console warning when
preferences are absent; otherwise replaces the working plan with items built
from the recipes returned by the selector. The selector output is passed in as
`recs` because its tie-break is randomised; its properties are proved
separately on `getRecommendations`. -/
def generateInitialMealPlan (prefs : Option UserPreferences)
    (recs : List RecipeWithTags) (st : ProviderState) : ProviderState :=
  match prefs with
  | none =>
      { st with consoleLog :=
          st.consoleLog ++ ["No user preferences available for meal plan generation"] }
  | some p =>
      { st with
        currentMealPlan := mealItemsFrom p recs st.nextId
        nextId := st.nextId + recs.length
        errorState := none }

/-- The source function `addMealToPlan`: no-op if the recipe id is already present, else append a
new entry with servings `servings || serves_per_meal || default_servings || 1`. -/
def addMealToPlan (prefs : Option UserPreferences) (recipe : RecipeWithTags)
    (servings : Option ℚ) (st : ProviderState) : ProviderState :=
  if st.currentMealPlan.any (fun meal => meal.recipe.id == recipe.id) then st
  else
    let newServings :=
      jsOrOpt servings
        (jsOrOpt (prefs.bind (fun p => p.serves_per_meal))
          (jsOrQ recipe.default_servings 1))
    { st with
      currentMealPlan := st.currentMealPlan ++
        [{ id := generateMealId st.nextId, recipe := recipe,
           servings := newServings }]
      nextId := st.nextId + 1 }

/-- The source function `removeMealFromPlan`: keep the entries whose id differs. -/
def removeMealFromPlan (mealId : String) (st : ProviderState) : ProviderState :=
  { st with currentMealPlan :=
      st.currentMealPlan.filter (fun meal => meal.id ≠ mealId) }

/-- The source function `updateMealServings`: replace the servings of entries with the matching id. -/
def updateMealServings (mealId : String) (servings : ℚ)
    (st : ProviderState) : ProviderState :=
  { st with currentMealPlan :=
      st.currentMealPlan.map (fun meal =>
        if meal.id == mealId then { meal with servings := servings } else meal) }

/-- The `clearMealPlan` operation. -/
def clearMealPlan (st : ProviderState) : ProviderState :=
  { st with currentMealPlan := [] }

/-- JS `Array.prototype.slice(0, ed)` on the working plan: a negative end
index counts from the end of the list, clamped at zero. -/
def jsSlice (l : List MealPlanItem) (ed : Int) : List MealPlanItem :=
  if ed < 0 then l.take (l.length - min l.length ed.natAbs)
  else l.take ed.toNat

/-- The source function `getCurrentMealPlan`: `limit ? plan.slice(0, limit) : plan`; an absent or
zero (falsy) limit returns the whole plan. -/
def getCurrentMealPlan (limit : Option Int) (st : ProviderState) :
    List MealPlanItem :=
  match limit with
  | none => st.currentMealPlan
  | some v => if v = 0 then st.currentMealPlan else jsSlice st.currentMealPlan v

/-! ## Week-scoped plan store (`loadMealPlanForWeek` / `getMealPlanForWeek`) -/

/-- One row of `get_week_meal_plan_with_recipes`. -/
structure MealRow where
  id : String
  recipe_id : String
  recipe_name : String := ""
  recipe_image_url : String := ""
  recipe_total_time : ℚ := 0
  servings : ℚ
  status : String := "draft"
  week_id : String := ""
  user_id : String := ""
  created_at : String := ""
  updated_at : String := ""
  deriving DecidableEq, Repr

/-- A supabase rpc outcome: a nullable data array and a nullable error. -/
structure RpcResult where
  data : Option (List MealRow) := none
  error : Option String := none
  deriving DecidableEq, Repr

/-- Hydration of one persisted row: prefer the recipe of the live catalog, fall
back to the denormalized snapshot with empty/zero defaults. -/
def hydrateRow (recipes : List RecipeWithTags) (item : MealRow) : MealPlanItem :=
  let fullRecipe := recipes.find? (fun r => r.id == item.recipe_id)
  let recipe : RecipeWithTags :=
    match fullRecipe with
    | some r => r
    | none =>
        { id := item.recipe_id
          name := item.recipe_name
          image_url := item.recipe_image_url
          total_time := item.recipe_total_time
          tagIds := []
          description := ""
          prep_time := 0
          cook_time := 0
          default_servings := 1
          created_at := "" }
  { id := "saved_" ++ item.id
    recipe := recipe
    servings := item.servings
    status := some item.status
    week_id := some item.week_id
    user_id := some item.user_id
    created_at := some item.created_at
    updated_at := some item.updated_at }

/-- The source function `getMealPlanForWeek`: on a backend error the function logs
`console.error("Error fetching meal plan:", err)` and returns `[]` (the error
is not re-thrown); on null/empty data it returns `[]`; otherwise it hydrates
every row. The returned pair is (items, console entries produced). -/
def getMealPlanForWeek (res : RpcResult) (recipes : List RecipeWithTags) :
    List MealPlanItem × List String :=
  match res.error with
  | some e => ([], ["Error fetching meal plan: " ++ e])
  | none =>
      match res.data with
      | none => ([], [])
      | some rows =>
          if rows = [] then ([], []) else (rows.map (hydrateRow recipes), [])

/-- The source function `loadMealPlanForWeek`: clear the error flag, fetch the saved plan; install
it when non-empty, else fall back to `generateInitialMealPlan` (the backend
error, when any, has already been swallowed and logged inside
`getMealPlanForWeek`, so the fallback is reached on the error outcome too). -/
def loadMealPlanForWeek (res : RpcResult) (recipes : List RecipeWithTags)
    (prefs : Option UserPreferences) (recs : List RecipeWithTags)
    (st : ProviderState) : ProviderState :=
  let st1 := { st with errorState := none }
  let fetched := getMealPlanForWeek res recipes
  let st2 := { st1 with consoleLog := st1.consoleLog ++ fetched.2 }
  if fetched.1 ≠ [] then { st2 with currentMealPlan := fetched.1 }
  else generateInitialMealPlan prefs recs st2

/-! ## Sequences of plan operations -/

/-- The plan-mutating operations of the assembler. `generate` and `add` carry
the preferences snapshot read when they run; `generate` also carries the
recipes returned by the (randomised) recommendation selector. -/
inductive PlanOp where
  | generate (prefs : Option UserPreferences) (recs : List RecipeWithTags)
  | add (prefs : Option UserPreferences) (recipe : RecipeWithTags)
      (servings : Option ℚ)
  | remove (mealId : String)
  | updateServings (mealId : String) (servings : ℚ)
  | clear
  deriving DecidableEq

/-- Apply one operation to the provider state. -/
def applyOp (st : ProviderState) (op : PlanOp) : ProviderState :=
  match op with
  | .generate prefs recs => generateInitialMealPlan prefs recs st
  | .add prefs recipe servings => addMealToPlan prefs recipe servings st
  | .remove mealId => removeMealFromPlan mealId st
  | .updateServings mealId servings => updateMealServings mealId servings st
  | .clear => clearMealPlan st

/-- Run a sequence of plan operations. -/
def runOps (ops : List PlanOp) (st : ProviderState) : ProviderState :=
  ops.foldl applyOp st

/-- The score context built by `getRecommendations` from its options. -/
def ctxOf (opts : RecOptions) : ScoreContext :=
  { recentRecipeIds := opts.recentRecipeIds
    currentMealPlanRecipeIds := opts.currentMealPlanRecipeIds }

/-- A servings-like numeric input is harmless when it either falls through
the JS `||` chain (equals 0) or is already a valid servings count (≥ 1). -/
def falsyOrGe1 (v : ℚ) : Prop := v = 0 ∨ 1 ≤ v

/-- A preferences snapshot whose `serves_per_meal`, when present, is
falsy-or-valid. -/
def prefsServesOk : Option UserPreferences → Prop
  | none => True
  | some p => ∀ v, p.serves_per_meal = some v → falsyOrGe1 v

/-- The inputs of one operation keep every `||`-derived servings value ≥ 1:
updates pass a valid count, and every servings argument, preference default
and recipe default occurring in the operation is zero (falsy) or ≥ 1. -/
def ValidOp : PlanOp → Prop
  | .generate prefs recs =>
      prefsServesOk prefs ∧ ∀ r ∈ recs, falsyOrGe1 r.default_servings
  | .add prefs recipe servings =>
      prefsServesOk prefs ∧ (∀ v, servings = some v → falsyOrGe1 v)
        ∧ falsyOrGe1 recipe.default_servings
  | .remove _ => True
  | .updateServings _ s => 1 ≤ s
  | .clear => True

/-! ## Concrete instances used by witnesses and counterexamples -/

/-- A recipe with one tag. -/
def wRecipeA : RecipeWithTags := { id := "a", tagIds := ["t1"] }

/-- A second recipe with a distinct id. -/
def wRecipeB : RecipeWithTags := { id := "b", tagIds := ["t2"] }

/-- A recipe with no tags at all. -/
def wRecipeNoTags : RecipeWithTags := { id := "plain" }

/-- A two-entry working plan holding `wRecipeA` and `wRecipeB`. -/
def wState : ProviderState :=
  { currentMealPlan :=
      [{ id := "m1", recipe := wRecipeA, servings := 2 },
       { id := "m2", recipe := wRecipeB, servings := 3 }] }

/-- A "time"-typed tag for the C6 witness. -/
def wTagTime : Tag := { id := "t1", type := "time" }

/-- A "budget"-typed tag for the C6 witness. -/
def wTagBudget : Tag := { id := "b1", type := "budget" }

/-- A recipe carrying only the "time" tag. -/
def wRecipeTime : RecipeWithTags := { id := "ra", tagIds := ["t1"] }

/-- A recipe carrying only the "budget" tag. -/
def wRecipeBudget : RecipeWithTags := { id := "rb", tagIds := ["b1"] }

/-- The zero-servings entry produced by the C4 counterexample sequence. -/
def cxZeroItem : MealPlanItem :=
  { id := generateMealId 0, recipe := wRecipeA, servings := 0 }

/-- The entry produced by generating one plan item from `wRecipeA` with
default preferences. -/
def wGenItem : MealPlanItem :=
  { id := generateMealId 0, recipe := wRecipeA
    servings := generatedServings {} wRecipeA }

/-! ## Theorems -/

/-- C2 (counterexample): with the default configuration and a non-empty
current plan, a recipe with no tags gets diversity bonus 0, not the
configured diversity weight 0.5 — so the bonus is not a flat constant for
every recipe. -/
theorem C2_cex_no_tag_recipe_gets_zero :
    ¬ ((scoreRecipe DEFAULT_CONFIG wRecipeNoTags {} []
          { currentMealPlanRecipeIds := ["other"] }).scoreBreakdown.diversityBonus
        = DEFAULT_CONFIG.weights.diversity) := by
  simp [scoreRecipe, diversityScore, calculateDiversityBonus, wRecipeNoTags,
    DEFAULT_CONFIG]

/-- C2 (amended): whenever the current plan is non-empty, the recipe has at
least one tag, and diversity tag types are configured (as in the default
configuration), the diversity term of `scoreRecipe` equals the configured
diversity weight, independent of any tag overlap with the planned recipes. -/
theorem C2_diversity_flat (cfg : RecommendationConfig)
    (prefs : UserPreferences) (tags : List Tag) (ctx : ScoreContext)
    (r : RecipeWithTags)
    (hplan : ctx.currentMealPlanRecipeIds ≠ [])
    (htags : r.tagIds ≠ [])
    (hdiv : cfg.diversityTagTypes ≠ []) :
    (scoreRecipe cfg r prefs tags ctx).scoreBreakdown.diversityBonus
      = cfg.weights.diversity := by
  simp [scoreRecipe, diversityScore, calculateDiversityBonus, hplan, htags, hdiv]

/-- C2 (witness): the amended theorem applied to a concrete recipe, taxonomy
and plan context. -/
theorem C2_diversity_flat_witness :
    (scoreRecipe DEFAULT_CONFIG wRecipeA {} []
        { currentMealPlanRecipeIds := ["other"] }).scoreBreakdown.diversityBonus
      = DEFAULT_CONFIG.weights.diversity :=
  C2_diversity_flat DEFAULT_CONFIG {} [] { currentMealPlanRecipeIds := ["other"] }
    wRecipeA (by decide) (by decide) (by decide)

/-- C5: adding the same recipe twice is a no-op the second time (the whole
state is unchanged, hence the plan size is unchanged), and one `add`
preserves the no-duplicate-recipe-ids invariant of the working plan. -/
theorem C5_add_same_recipe_noop (p1 p2 : Option UserPreferences)
    (r : RecipeWithTags) (s1 s2 : Option ℚ) (st : ProviderState)
    (hnodup : (st.currentMealPlan.map (fun m => m.recipe.id)).Nodup) :
    addMealToPlan p2 r s2 (addMealToPlan p1 r s1 st) = addMealToPlan p1 r s1 st
    ∧ ((addMealToPlan p1 r s1 st).currentMealPlan.map
        (fun m => m.recipe.id)).Nodup := by
  have key : ∀ (p : Option UserPreferences) (sv : Option ℚ)
      (st' : ProviderState),
      st'.currentMealPlan.any (fun meal => meal.recipe.id == r.id) = true →
      addMealToPlan p r sv st' = st' := by
    intro p sv st' hh
    simp [addMealToPlan, hh]
  by_cases h : st.currentMealPlan.any (fun meal => meal.recipe.id == r.id)
  · have h1 : addMealToPlan p1 r s1 st = st := key p1 s1 st h
    rw [h1]
    exact ⟨key p2 s2 st h, hnodup⟩
  · have h2 : (addMealToPlan p1 r s1 st).currentMealPlan.any
        (fun meal => meal.recipe.id == r.id) = true := by
      simp [addMealToPlan, h]
    have hids : (addMealToPlan p1 r s1 st).currentMealPlan.map
        (fun m => m.recipe.id)
          = st.currentMealPlan.map (fun m => m.recipe.id) ++ [r.id] := by
      simp [addMealToPlan, h]
    constructor
    · exact key p2 s2 _ h2
    · rw [hids, List.nodup_append]
      refine ⟨hnodup, List.nodup_singleton _, ?_⟩
      intro x hx hx1
      simp only [List.mem_singleton] at hx1
      rcases List.mem_map.mp hx with ⟨m, hm, hmx⟩
      have hfalse : st.currentMealPlan.any
          (fun meal => meal.recipe.id == r.id) = false :=
        Bool.eq_false_iff.mpr h
      have := List.any_eq_false.mp hfalse m hm
      simp only [beq_iff_eq] at this
      exact this (by rw [hmx, hx1])

/-- C5 (witness): the theorem applied to a concrete plan already holding the
recipe. -/
theorem C5_add_same_recipe_noop_witness :
    addMealToPlan none wRecipeA none (addMealToPlan none wRecipeA none wState)
        = addMealToPlan none wRecipeA none wState
    ∧ ((addMealToPlan none wRecipeA none wState).currentMealPlan.map
        (fun m => m.recipe.id)).Nodup :=
  C5_add_same_recipe_noop none none wRecipeA none none wState (by decide)

/-- C8: when the week fetch reports an error it is appended to the console
log (recorded, not discarded) and the operation falls back to
`generateInitialMealPlan`; when the fetch returns null or zero rows the same
fallback runs. -/
theorem C8_load_fallback (res : RpcResult) (recipes : List RecipeWithTags)
    (prefs : Option UserPreferences) (recs : List RecipeWithTags)
    (st : ProviderState) :
    (∀ e, res.error = some e →
      loadMealPlanForWeek res recipes prefs recs st
        = generateInitialMealPlan prefs recs
            { st with errorState := none
                      consoleLog :=
                        st.consoleLog ++ ["Error fetching meal plan: " ++ e] })
    ∧ (res.error = none → (res.data = none ∨ res.data = some []) →
      loadMealPlanForWeek res recipes prefs recs st
        = generateInitialMealPlan prefs recs { st with errorState := none }) := by
  constructor
  · intro e he
    simp [loadMealPlanForWeek, getMealPlanForWeek, he]
  · intro he hd
    rcases hd with hd | hd <;>
      simp [loadMealPlanForWeek, getMealPlanForWeek, he, hd]

/-- C8 (witness): the error outcome at a concrete failed fetch. -/
theorem C8_load_fallback_witness :
    loadMealPlanForWeek { error := some ("boom") } [] (some {}) [wRecipeA] wState
      = generateInitialMealPlan (some {}) [wRecipeA]
          { wState with errorState := none
                        consoleLog :=
                          wState.consoleLog ++ ["Error fetching meal plan: " ++ "boom"] } :=
  (C8_load_fallback { error := some ("boom") } [] (some {}) [wRecipeA] wState).1
    ("boom") rfl

/-- C9: `updateMealServings` changes exactly the servings of entries whose id
matches; length and order are preserved, non-matching entries are untouched,
and when nothing matches the whole state is unchanged. -/
theorem C9_updateServings_frame (mealId : String) (s : ℚ)
    (st : ProviderState) :
    ((updateMealServings mealId s st).currentMealPlan.length
        = st.currentMealPlan.length)
    ∧ (∀ i (h1 : i < st.currentMealPlan.length)
          (h2 : i < (updateMealServings mealId s st).currentMealPlan.length),
        ((st.currentMealPlan.get ⟨i, h1⟩).id = mealId →
          (updateMealServings mealId s st).currentMealPlan.get ⟨i, h2⟩
            = { st.currentMealPlan.get ⟨i, h1⟩ with servings := s })
        ∧ ((st.currentMealPlan.get ⟨i, h1⟩).id ≠ mealId →
          (updateMealServings mealId s st).currentMealPlan.get ⟨i, h2⟩
            = st.currentMealPlan.get ⟨i, h1⟩))
    ∧ ((∀ m ∈ st.currentMealPlan, m.id ≠ mealId) →
        updateMealServings mealId s st = st) := by
  refine ⟨by simp [updateMealServings], ?_, ?_⟩
  · intro i h1 h2
    have hget : (updateMealServings mealId s st).currentMealPlan.get ⟨i, h2⟩
        = (if (st.currentMealPlan.get ⟨i, h1⟩).id == mealId
           then { st.currentMealPlan.get ⟨i, h1⟩ with servings := s }
           else st.currentMealPlan.get ⟨i, h1⟩) := by
      simp [updateMealServings, List.get_eq_getElem]
    constructor
    · intro hid
      rw [hget, if_pos (by simpa using hid)]
    · intro hid
      rw [hget, if_neg (by simpa using hid)]
  · intro hnone
    have hmap : st.currentMealPlan.map (fun meal =>
        if meal.id == mealId then { meal with servings := s } else meal)
          = st.currentMealPlan := by
      calc st.currentMealPlan.map (fun meal =>
              if meal.id == mealId then { meal with servings := s } else meal)
            = st.currentMealPlan.map id :=
              List.map_congr_left (fun m hm => by simp [hnone m hm])
        _ = st.currentMealPlan := List.map_id _
    unfold updateMealServings
    rw [hmap]

/-- C9 (witness): the no-match case on a concrete plan. -/
theorem C9_updateServings_frame_witness :
    updateMealServings ("zzz") 5 wState = wState :=
  (C9_updateServings_frame ("zzz") 5 wState).2.2 (by decide)

/-- C10: a positive `limit` returns the first `limit` entries of the working
plan, while `limit = 0` is falsy in the source `limit ? ... : ...` test and
returns the entire plan. -/
theorem C10_getCurrentMealPlan_zero_is_no_limit (st : ProviderState)
    (l : Int) :
    (0 < l → getCurrentMealPlan (some l) st = st.currentMealPlan.take l.toNat)
    ∧ getCurrentMealPlan (some 0) st = st.currentMealPlan := by
  constructor
  · intro hl
    have h0 : ¬ l = 0 := by omega
    have h1 : ¬ l < 0 := by omega
    simp [getCurrentMealPlan, jsSlice, h0, h1]
  · simp [getCurrentMealPlan]

/-- C1 (counterexample): on a catalog that itself contains a duplicate recipe
identifier the selector returns duplicates, so the claim does not hold for
all catalogs. -/
theorem C1_cex_duplicate_catalog :
    ¬ ((getRecommendations DEFAULT_CONFIG [wRecipeA, wRecipeA] {} []
          { count := 2 } (fun l => l)).length ≤ 2
        ∧ ((getRecommendations DEFAULT_CONFIG [wRecipeA, wRecipeA] {} []
            { count := 2 } (fun l => l)).map (fun x => x.recipe.id)).Nodup) := by
  intro hcontra
  have hdup := hcontra.2
  have hmap : (getRecommendations DEFAULT_CONFIG [wRecipeA, wRecipeA] {} []
      { count := 2 } (fun l => l)).map (fun x => x.recipe.id) = ["a", "a"] := by
    simp [getRecommendations, scoreRecipe, prefTagScore, goalAlignmentScore,
      diversityScore, recencyScore, calculateDiversityBonus, wRecipeA,
      DEFAULT_CONFIG]
  rw [hmap] at hdup
  simp at hdup

/-- C1 (amended): for every configuration, preferences, taxonomy and options,
and any sort that permutes its input (which `Array.prototype.sort` guarantees
for any comparator), `getRecommendations` returns at most `count` entries;
and whenever the catalog has no duplicate recipe identifiers, the result has
none either. -/
theorem C1_select_bounded_nodup (cfg : RecommendationConfig)
    (recipes : List RecipeWithTags) (prefs : UserPreferences)
    (tags : List Tag) (opts : RecOptions)
    (sortFn : List ScoredRecipe → List ScoredRecipe)
    (hsort : ∀ l, (sortFn l).Perm l) :
    (getRecommendations cfg recipes prefs tags opts sortFn).length ≤ opts.count
    ∧ ((recipes.map (fun r => r.id)).Nodup →
        ((getRecommendations cfg recipes prefs tags opts sortFn).map
          (fun x => x.recipe.id)).Nodup) := by
  have hgr : getRecommendations cfg recipes prefs tags opts sortFn
      = (sortFn (((if opts.excludeRecipeIds ≠ [] then
            recipes.filter (fun r => ¬ opts.excludeRecipeIds.contains r.id)
          else recipes).map (fun r =>
            scoreRecipe cfg r prefs tags (ctxOf opts))).filter
          (fun r => cfg.minimumScore ≤ r.score))).take opts.count := rfl
  set avail := (if opts.excludeRecipeIds ≠ [] then
      recipes.filter (fun r => ¬ opts.excludeRecipeIds.contains r.id)
    else recipes) with havail
  set scored := avail.map (fun r => scoreRecipe cfg r prefs tags (ctxOf opts))
    with hscored
  set valid := scored.filter (fun r => cfg.minimumScore ≤ r.score) with hvalid
  constructor
  · rw [hgr, List.length_take]
    exact min_le_left _ _
  · intro hnodup
    rw [hgr]
    have h1 : (avail.map (fun r => r.id)).Nodup := by
      rw [havail]
      split
      · exact ((List.filter_sublist _).map _).nodup hnodup
      · exact hnodup
    have h2 : scored.map (fun x => x.recipe.id) = avail.map (fun r => r.id) := by
      rw [hscored, List.map_map]
      rfl
    have h3 : (valid.map (fun x => x.recipe.id)).Nodup := by
      rw [hvalid]
      exact ((List.filter_sublist _).map _).nodup (h2 ▸ h1)
    have h4 : ((sortFn valid).map (fun x => x.recipe.id)).Nodup :=
      (((hsort valid).map (fun x => x.recipe.id)).nodup_iff).mpr h3
    exact ((List.take_sublist _ _).map _).nodup h4

/-- C1 (witness): the amended theorem at a two-recipe duplicate-free catalog
with `count = 1` and the identity permutation as the sort outcome, with the
duplicate-free-catalog hypothesis of the second conjunct discharged. -/
theorem C1_select_bounded_nodup_witness :
    (getRecommendations DEFAULT_CONFIG [wRecipeA, wRecipeB] {} []
        { count := 1 } (fun l => l)).length ≤ 1
    ∧ ((getRecommendations DEFAULT_CONFIG [wRecipeA, wRecipeB] {} []
        { count := 1 } (fun l => l)).map (fun x => x.recipe.id)).Nodup :=
  ⟨(C1_select_bounded_nodup DEFAULT_CONFIG [wRecipeA, wRecipeB] {} []
      { count := 1 } (fun l => l) (fun l => List.Perm.refl l)).1,
   (C1_select_bounded_nodup DEFAULT_CONFIG [wRecipeA, wRecipeB] {} []
      { count := 1 } (fun l => l) (fun l => List.Perm.refl l)).2 (by decide)⟩

/-- C3 (counterexample): under the default configuration (minimumScore 0) a
recipe whose only score contribution is the recency penalty has a negative
total and is dropped by the minimum-score filter — the step does filter. -/
theorem C3_cex_negative_dropped :
    (scoreRecipe DEFAULT_CONFIG wRecipeNoTags {} []
        { recentRecipeIds := ["plain"] }).score < 0
    ∧ getRecommendations DEFAULT_CONFIG [wRecipeNoTags] {} []
        { count := 1, recentRecipeIds := ["plain"] } (fun l => l) = [] := by
  constructor
  · simp [scoreRecipe, prefTagScore, goalAlignmentScore, diversityScore,
      recencyScore, calculateDiversityBonus, wRecipeNoTags, DEFAULT_CONFIG]
    norm_num
  · simp [getRecommendations, scoreRecipe, prefTagScore, goalAlignmentScore,
      diversityScore, recencyScore, calculateDiversityBonus, wRecipeNoTags,
      DEFAULT_CONFIG]
    norm_num

/-- C3 (amended): under the default configuration the minimum-score step does
filter: every recipe surviving into the ranked, truncated result has a
non-negative total score (for any permuting sort outcome). -/
theorem C3_min_score_filters (recipes : List RecipeWithTags)
    (prefs : UserPreferences) (tags : List Tag) (opts : RecOptions)
    (sortFn : List ScoredRecipe → List ScoredRecipe)
    (hsort : ∀ l, (sortFn l).Perm l) :
    ∀ x ∈ getRecommendations DEFAULT_CONFIG recipes prefs tags opts sortFn,
      0 ≤ x.score := by
  intro x hx
  have hgr : getRecommendations DEFAULT_CONFIG recipes prefs tags opts sortFn
      = (sortFn (((if opts.excludeRecipeIds ≠ [] then
            recipes.filter (fun r => ¬ opts.excludeRecipeIds.contains r.id)
          else recipes).map (fun r =>
            scoreRecipe DEFAULT_CONFIG r prefs tags (ctxOf opts))).filter
          (fun r => DEFAULT_CONFIG.minimumScore ≤ r.score))).take opts.count :=
    rfl
  rw [hgr] at hx
  have hx1 := List.take_subset _ _ hx
  have hx2 := (hsort _).subset hx1
  have hx3 := (List.mem_filter.mp hx2).2
  exact of_decide_eq_true hx3

/-- C3 (witness): the amended theorem at a concrete catalog whose single
recipe scores exactly 0 and is kept. -/
theorem C3_min_score_filters_witness :
    0 ≤ (scoreRecipe DEFAULT_CONFIG wRecipeA {} [] (ctxOf { count := 1 })).score :=
  C3_min_score_filters [wRecipeA] {} [] { count := 1 } (fun l => l)
    (fun l => List.Perm.refl l)
    (scoreRecipe DEFAULT_CONFIG wRecipeA {} [] (ctxOf { count := 1 }))
    (by simp [getRecommendations, scoreRecipe, prefTagScore, goalAlignmentScore,
      diversityScore, recencyScore, calculateDiversityBonus, wRecipeA,
      DEFAULT_CONFIG, ctxOf])

/-- C6: with the ordered goal list `["time", "budget"]`, a recipe whose
resolved tags match only the type "time" receives goal-alignment
`2 * goalWeight` while one matching only "budget" receives `1 * goalWeight`,
so under the default configuration the former is strictly larger. -/
theorem C6_goal_priority_order (tags : List Tag) (prefs : UserPreferences)
    (ctx : ScoreContext) (ra rb : RecipeWithTags)
    (hgoals : prefs.user_goals = ["time", "budget"])
    (hA1 : (tags.filter (fun t => ra.tagIds.contains t.id)).filter
        (fun t => t.type == "time") ≠ [])
    (hA2 : (tags.filter (fun t => ra.tagIds.contains t.id)).filter
        (fun t => t.type == "budget") = [])
    (hB1 : (tags.filter (fun t => rb.tagIds.contains t.id)).filter
        (fun t => t.type == "time") = [])
    (hB2 : (tags.filter (fun t => rb.tagIds.contains t.id)).filter
        (fun t => t.type == "budget") ≠ []) :
    (scoreRecipe DEFAULT_CONFIG rb prefs tags ctx).scoreBreakdown.goalAlignment
      < (scoreRecipe DEFAULT_CONFIG ra prefs tags
          ctx).scoreBreakdown.goalAlignment := by
  have htags : tags ≠ [] := by
    intro h
    rw [h] at hA1
    simp at hA1
  have hproj : ∀ r : RecipeWithTags,
      (scoreRecipe DEFAULT_CONFIG r prefs tags ctx).scoreBreakdown.goalAlignment
        = goalAlignmentScore DEFAULT_CONFIG r prefs tags := fun r => rfl
  have hA1e := hA1
  have hA2e := hA2
  have hB1e := hB1
  have hB2e := hB2
  simp at hA1e hA2e hB1e hB2e
  have hA : goalAlignmentScore DEFAULT_CONFIG ra prefs tags = 4 := by
    simp [goalAlignmentScore, hgoals, htags, hA1e, hA2e, DEFAULT_CONFIG,
      List.enum, List.enumFrom]
    rw [if_neg (by simpa using hA2e)]
    norm_num
  have hB : goalAlignmentScore DEFAULT_CONFIG rb prefs tags = 2 := by
    simp [goalAlignmentScore, hgoals, htags, hB1e, hB2e, DEFAULT_CONFIG,
      List.enum, List.enumFrom]
    exact hB1e
  rw [hproj, hproj, hA, hB]
  norm_num

/-- C6 (witness): the theorem at a concrete taxonomy and pair of recipes. -/
theorem C6_goal_priority_order_witness :
    (scoreRecipe DEFAULT_CONFIG wRecipeBudget
        { user_goals := ["time", "budget"] } [wTagTime, wTagBudget]
        {}).scoreBreakdown.goalAlignment
      < (scoreRecipe DEFAULT_CONFIG wRecipeTime
          { user_goals := ["time", "budget"] } [wTagTime, wTagBudget]
          {}).scoreBreakdown.goalAlignment :=
  C6_goal_priority_order [wTagTime, wTagBudget]
    { user_goals := ["time", "budget"] } {} wRecipeTime wRecipeBudget rfl
    (by decide) (by decide) (by decide) (by decide)

/-- A non-empty nested filter over the taxonomy stays non-empty when the
tag-id set of the recipe grows. -/
lemma filter_tags_ne_nil_mono (tags : List Tag) (q : Tag → Bool)
    (l1 l2 : List String)
    (hsub : ∀ x, l1.contains x = true → l2.contains x = true)
    (h : (tags.filter (fun tg => l1.contains tg.id)).filter q ≠ []) :
    (tags.filter (fun tg => l2.contains tg.id)).filter q ≠ [] := by
  rcases List.exists_mem_of_ne_nil _ h with ⟨x, hx⟩
  rcases List.mem_filter.mp hx with ⟨hx1, hxq⟩
  rcases List.mem_filter.mp hx1 with ⟨hxt, hxc⟩
  exact List.ne_nil_of_mem (List.mem_filter.mpr
    ⟨List.mem_filter.mpr ⟨hxt, hsub _ hxc⟩, hxq⟩)

/-- Membership via `contains` is preserved by appending one element. -/
lemma contains_append_one {l : List String} (t x : String)
    (h : l.contains x = true) : (l ++ [t]).contains x = true := by
  have hx : x ∈ l := by simpa using h
  have hx2 : x ∈ l ++ [t] := List.mem_append_left _ hx
  simpa using hx2

/-- Appending one preferred tag id never decreases the preference-tag term. -/
lemma prefTagScore_le_append (cfg : RecommendationConfig)
    (prefs : UserPreferences) (r : RecipeWithTags) (t : String)
    (hw : 0 ≤ cfg.weights.preferenceTag) :
    prefTagScore cfg r prefs ≤
      prefTagScore cfg { r with tagIds := r.tagIds ++ [t] } prefs := by
  unfold prefTagScore
  by_cases hne : prefs.user_preference_tags = []
  · simp [hne]
  · rw [if_pos hne, if_pos hne]
    have hproj : ({ r with tagIds := r.tagIds ++ [t] } : RecipeWithTags).tagIds
        = r.tagIds ++ [t] := rfl
    rw [hproj, List.map_append, List.sum_append]
    have h0 : (0:ℚ) ≤ ([t].map (fun tid =>
        if prefs.user_preference_tags.filter (fun p => p.tag_id == tid) ≠ []
        then cfg.weights.preferenceTag else 0)).sum := by
      simp only [List.map_cons, List.map_nil, List.sum_cons, List.sum_nil,
        add_zero]
      split
      · exact hw
      · exact le_refl 0
    linarith

/-- Appending one tag id never decreases the goal-alignment term. -/
lemma goalAlignmentScore_le_append (cfg : RecommendationConfig)
    (prefs : UserPreferences) (tags : List Tag) (r : RecipeWithTags)
    (t : String) (hw : 0 ≤ cfg.weights.goalAlignment) :
    goalAlignmentScore cfg r prefs tags ≤
      goalAlignmentScore cfg { r with tagIds := r.tagIds ++ [t] } prefs tags := by
  unfold goalAlignmentScore
  have hproj : ({ r with tagIds := r.tagIds ++ [t] } : RecipeWithTags).tagIds
      = r.tagIds ++ [t] := rfl
  rw [hproj]
  by_cases hc : prefs.user_goals ≠ [] ∧ tags ≠ []
  · rw [if_pos hc, if_pos hc]
    apply List.sum_le_sum
    intro p hp
    by_cases hf : (tags.filter (fun tg => r.tagIds.contains tg.id)).filter
        (fun tg => tg.type == p.2) ≠ []
    · rw [if_pos hf, if_pos (filter_tags_ne_nil_mono tags _ r.tagIds
        (r.tagIds ++ [t]) (fun x hx => contains_append_one t x hx) hf)]
    · rw [if_neg hf]
      by_cases hf2 : (tags.filter (fun tg =>
          (r.tagIds ++ [t]).contains tg.id)).filter (fun tg => tg.type == p.2)
            ≠ []
      · rw [if_pos hf2]
        exact mul_nonneg (Nat.cast_nonneg _) hw
      · rw [if_neg hf2]
  · rw [if_neg hc, if_neg hc]

/-- Appending one tag id never decreases the diversity term. -/
lemma diversityScore_le_append (cfg : RecommendationConfig)
    (ctx : ScoreContext) (r : RecipeWithTags) (t : String)
    (hw : 0 ≤ cfg.weights.diversity) :
    diversityScore cfg r ctx ≤
      diversityScore cfg { r with tagIds := r.tagIds ++ [t] } ctx := by
  unfold diversityScore calculateDiversityBonus
  by_cases hplan : ctx.currentMealPlanRecipeIds ≠ []
  · rw [if_pos hplan, if_pos hplan]
    have hproj : ({ r with tagIds := r.tagIds ++ [t] } : RecipeWithTags).tagIds
        = r.tagIds ++ [t] := rfl
    rw [hproj]
    by_cases hdiv : cfg.diversityTagTypes = []
    · simp [hdiv]
    · have happ : ¬ (r.tagIds ++ [t] = [] ∨ cfg.diversityTagTypes = []) := by
        simp [hdiv]
      rw [if_neg happ]
      by_cases htag : r.tagIds = []
      · rw [if_pos (Or.inl htag)]
        exact hw
      · rw [if_neg (by simp [htag, hdiv])]
  · rw [if_neg hplan, if_neg hplan]

/-- C7: with non-negative preference-tag, goal and diversity weights (as in
the default configuration), appending one tag that is in the preferred-tag
set of the user never decreases the total score of a recipe. -/
theorem C7_preferred_tag_monotone (cfg : RecommendationConfig)
    (prefs : UserPreferences) (tags : List Tag) (ctx : ScoreContext)
    (r : RecipeWithTags) (t : String)
    (hw1 : 0 ≤ cfg.weights.preferenceTag)
    (hw2 : 0 ≤ cfg.weights.goalAlignment)
    (hw3 : 0 ≤ cfg.weights.diversity)
    (ht : prefs.user_preference_tags.filter (fun p => p.tag_id == t) ≠ []) :
    (scoreRecipe cfg r prefs tags ctx).score ≤
      (scoreRecipe cfg { r with tagIds := r.tagIds ++ [t] } prefs tags
        ctx).score := by
  have hscore : ∀ rr : RecipeWithTags,
      (scoreRecipe cfg rr prefs tags ctx).score
        = prefTagScore cfg rr prefs + goalAlignmentScore cfg rr prefs tags
          + diversityScore cfg rr ctx + recencyScore cfg rr ctx := fun rr => rfl
  rw [hscore, hscore]
  have h1 := prefTagScore_le_append cfg prefs r t hw1
  have h2 := goalAlignmentScore_le_append cfg prefs tags r t hw2
  have h3 := diversityScore_le_append cfg ctx r t hw3
  have h4 : recencyScore cfg { r with tagIds := r.tagIds ++ [t] } ctx
      = recencyScore cfg r ctx := rfl
  rw [h4]
  linarith

/-- C7 (witness): the theorem at the default configuration, a tag-free
recipe, and a preference set holding the appended tag. -/
theorem C7_preferred_tag_monotone_witness :
    (scoreRecipe DEFAULT_CONFIG wRecipeNoTags
        { user_preference_tags := [{ tag_id := "t9" }] } [] {}).score ≤
      (scoreRecipe DEFAULT_CONFIG
          { wRecipeNoTags with tagIds := wRecipeNoTags.tagIds ++ ["t9"] }
          { user_preference_tags := [{ tag_id := "t9" }] } [] {}).score :=
  C7_preferred_tag_monotone DEFAULT_CONFIG
    { user_preference_tags := [{ tag_id := "t9" }] } [] {} wRecipeNoTags ("t9")
    (by decide) (by decide) (by simp [DEFAULT_CONFIG]) (by decide)

/-- The function `jsOrQ` yields at least 1 when its first argument is
falsy-or-valid and its fallback is at least 1. -/
lemma jsOrQ_ge1 {x y : ℚ} (hx : falsyOrGe1 x) (hy : 1 ≤ y) :
    1 ≤ jsOrQ x y := by
  rcases hx with h | h
  · simpa [jsOrQ, h] using hy
  · have hne : ¬ x = 0 := by
      intro h0
      rw [h0] at h
      norm_num at h
    simpa [jsOrQ, hne] using h

/-- The function `jsOrOpt` yields at least 1 when any present value is falsy-or-valid and
the fallback is at least 1. -/
lemma jsOrOpt_ge1 {x : Option ℚ} {y : ℚ}
    (hx : ∀ v, x = some v → falsyOrGe1 v) (hy : 1 ≤ y) : 1 ≤ jsOrOpt x y := by
  cases x with
  | none => simpa [jsOrOpt] using hy
  | some v => exact jsOrQ_ge1 (hx v rfl) hy

/-- Every item produced by `mealItemsFrom` carries the generated servings of
some recommended recipe. -/
lemma mem_mealItemsFrom {p : UserPreferences} {recs : List RecipeWithTags}
    {n : ℕ} {m : MealPlanItem} (hm : m ∈ mealItemsFrom p recs n) :
    ∃ r ∈ recs, m.servings = generatedServings p r := by
  induction recs generalizing n with
  | nil => simp [mealItemsFrom] at hm
  | cons r rest ih =>
      rcases (by simpa [mealItemsFrom] using hm :
          m = { id := generateMealId n, recipe := r,
                servings := generatedServings p r } ∨
            m ∈ mealItemsFrom p rest (n + 1)) with h | h
      · exact ⟨r, by simp, by rw [h]⟩
      · rcases ih h with ⟨r2, hr2, hs⟩
        exact ⟨r2, by simp [hr2], hs⟩

/-- One valid operation preserves "every entry has servings ≥ 1". -/
lemma applyOp_servings (op : PlanOp) (st : ProviderState)
    (hop : ValidOp op)
    (hst : ∀ m ∈ st.currentMealPlan, 1 ≤ m.servings) :
    ∀ m ∈ (applyOp st op).currentMealPlan, 1 ≤ m.servings := by
  cases op with
  | generate prefs recs =>
      cases prefs with
      | none => simpa [applyOp, generateInitialMealPlan] using hst
      | some p =>
          intro m hm
          have hm2 : m ∈ mealItemsFrom p recs st.nextId := by
            simpa [applyOp, generateInitialMealPlan] using hm
          rcases mem_mealItemsFrom hm2 with ⟨r, hr, hs⟩
          rw [hs]
          exact jsOrOpt_ge1 (hop.1 · ·) (jsOrQ_ge1 (hop.2 r hr) le_rfl)
  | add prefs recipe servings =>
      intro m hm
      by_cases h : st.currentMealPlan.any
          (fun meal => meal.recipe.id == recipe.id)
      · exact hst m (by simpa [applyOp, addMealToPlan, h] using hm)
      · rcases (by simpa [applyOp, addMealToPlan, h] using hm :
            m ∈ st.currentMealPlan ∨
              m = { id := generateMealId st.nextId, recipe := recipe,
                    servings := jsOrOpt servings
                      (jsOrOpt (prefs.bind (fun p => p.serves_per_meal))
                        (jsOrQ recipe.default_servings 1)) }) with hmem | hmem
        · exact hst m hmem
        · rw [hmem]
          refine jsOrOpt_ge1 hop.2.1 (jsOrOpt_ge1 ?_ (jsOrQ_ge1 hop.2.2 le_rfl))
          intro v hv
          cases prefs with
          | none => simp at hv
          | some p => exact hop.1 v (by simpa using hv)
  | remove mealId =>
      intro m hm
      have hm2 : m ∈ st.currentMealPlan ∧ ¬ m.id = mealId := by
        simpa [applyOp, removeMealFromPlan] using hm
      exact hst m hm2.1
  | updateServings mealId s =>
      intro m hm
      rcases List.mem_map.mp
          (by simpa [applyOp, updateMealServings] using hm) with ⟨m0, hm0, heq⟩
      by_cases hid : m0.id = mealId
      · rw [← heq, if_pos hid]
        exact hop
      · rw [← heq, if_neg hid]
        exact hst m0 hm0
  | clear =>
      intro m hm
      simp [applyOp, clearMealPlan] at hm

/-- Valid operation sequences preserve the servings invariant. -/
lemma runOps_servings (ops : List PlanOp) :
    ∀ st : ProviderState, (∀ op ∈ ops, ValidOp op) →
      (∀ m ∈ st.currentMealPlan, 1 ≤ m.servings) →
      ∀ m ∈ (runOps ops st).currentMealPlan, 1 ≤ m.servings := by
  induction ops with
  | nil =>
      intro st hval hst
      simpa [runOps] using hst
  | cons op rest ih =>
      intro st hval hst
      have h1 := applyOp_servings op st (hval op (by simp)) hst
      have h2 := ih (applyOp st op)
        (fun o ho => hval o (by simp [ho])) h1
      simpa [runOps] using h2

/-- C4 (counterexample): starting from the empty plan, `add` followed by
`updateServings .. 0` leaves an entry with servings 0, violating the claimed
invariant for arbitrary inputs. -/
theorem C4_cex_update_zero :
    ¬ (∀ m ∈ (runOps [PlanOp.add none wRecipeA (some 2),
          PlanOp.updateServings (generateMealId 0) 0] {}).currentMealPlan,
        1 ≤ m.servings) := by
  intro hcontra
  have hplan : (runOps [PlanOp.add none wRecipeA (some 2),
      PlanOp.updateServings (generateMealId 0) 0] {}).currentMealPlan
        = [cxZeroItem] := by
    simp [runOps, applyOp, addMealToPlan, updateMealServings, jsOrOpt, jsOrQ,
      cxZeroItem]
  have h1 := hcontra cxZeroItem
    (by rw [hplan]; exact List.mem_singleton_self _)
  rw [show cxZeroItem.servings = 0 from rfl] at h1
  norm_num at h1

/-- C4 (amended): after any sequence of generate/add/remove/updateServings/
clear operations from the empty plan in which every `updateServings` value is
≥ 1 and every servings argument, preference serves-per-meal and recipe
default-servings is zero (falsy) or ≥ 1, every entry of the working plan has
servings ≥ 1. Without those caller-side conditions the invariant fails, as
the assembler does not validate servings. -/
theorem C4_servings_invariant (ops : List PlanOp)
    (hvalid : ∀ op ∈ ops, ValidOp op) :
    ∀ m ∈ (runOps ops {}).currentMealPlan, 1 ≤ m.servings :=
  runOps_servings ops {} hvalid (by simp)

/-- C4 (witness): the amended invariant applied to the entry produced by one
concrete valid generate operation. -/
theorem C4_servings_invariant_witness : 1 ≤ wGenItem.servings :=
  C4_servings_invariant [PlanOp.generate (some {}) [wRecipeA]]
    (by
      intro op hop
      simp only [List.mem_cons, List.not_mem_nil, or_false] at hop
      subst hop
      simp [ValidOp, prefsServesOk, falsyOrGe1, wRecipeA])
    wGenItem
    (by simp [wGenItem, runOps, applyOp, generateInitialMealPlan, mealItemsFrom])

/-- C10 (witness): limit 1 and limit 0 on a concrete two-entry plan. -/
theorem C10_getCurrentMealPlan_zero_is_no_limit_witness :
    (getCurrentMealPlan (some 1) wState
        = wState.currentMealPlan.take (1 : Int).toNat)
    ∧ getCurrentMealPlan (some 0) wState = wState.currentMealPlan :=
  ⟨(C10_getCurrentMealPlan_zero_is_no_limit wState 1).1 (by decide),
   (C10_getCurrentMealPlan_zero_is_no_limit wState 1).2⟩

end MealMate
